import Mathlib

/-!
# Verification of the tfblib core (`src/system_code.c`)

A shallow embedding of the framebuffer-session, viewport, compositor,
terminal raw-mode and keypress-decoder code of `src/system_code.c`.
Machine integers (`u32`, `uint64_t`) are modelled as `Nat` with explicit
`% 2^32` / `% 2^64` where C overflow semantics matter; the plain C `char`
is modelled as signed (the default on the x86/Linux targets this library
is built for, and no `-funsigned-char` appears in the build file).
Reads from file descriptors are modelled as consuming a `List Nat` of
byte values (`0..255`); an exhausted list models a failed/EOF `read`.
-/

/-- Modelled from the spec: return/error codes are small integer
enumerations (the header defining them is not part of the sources);
only their distinctness matters to the theorems below. -/
def TFB_SUCCESS : Nat := 0

/-- Modelled from the spec: the `InvalidWindow` error code. -/
def TFB_INVALID_WINDOW : Nat := 6

/-- Modelled from the spec: the `WrongMode` error code of the
terminal-mode controller. -/
def TFB_KB_WRONG_MODE : Nat := 11

/-- Modelled from the spec: the `ModeQueryFailed` error code. -/
def TFB_KB_MODE_GET_FAILED : Nat := 12

/-- Modelled from the spec: the `ModeSetFailed` error code. -/
def TFB_KB_MODE_SET_FAILED : Nat := 13

/-- `2^32`, the modulus of the C `u32` type. -/
def U32 : Nat := 4294967296

/-- `2^64`, the modulus of the C `uint64_t` type. -/
def U64 : Nat := 18446744073709551616

/-!
## Viewport controller (`tfb_set_window`, lines 38-54)

The relevant globals (`__fb_screen_w`, `__fb_screen_h`, `__fbi.xoffset`,
`__fbi.yoffset`, `__fb_off_x/y`, `__fb_win_w/h`, `__fb_win_end_x/y`) are
gathered into one state record.  All fields are C `u32` values, so every
addition the code performs is taken `% 2^32`.
-/

/-- The `u32` globals read and written by `tfb_set_window`. -/
structure WinState where
  screen_w : Nat
  screen_h : Nat
  xoffset : Nat
  yoffset : Nat
  off_x : Nat
  off_y : Nat
  win_w : Nat
  win_h : Nat
  win_end_x : Nat
  win_end_y : Nat
  deriving Repr, DecidableEq

/-- `tfb_set_window(x, y, w, h)` (system_code.c:38-54).  The two guards
compute `x + w` and `y + h` in `u32` arithmetic (hence `% 2^32`); on
success the six viewport globals are recomputed, also in `u32`
arithmetic, and `TFB_SUCCESS` is returned. -/
def tfb_set_window (s : WinState) (x y w h : Nat) : Nat × WinState :=
  if (x + w) % U32 > s.screen_w then
    (TFB_INVALID_WINDOW, s)
  else if (y + h) % U32 > s.screen_h then
    (TFB_INVALID_WINDOW, s)
  else
    let off_x := (s.xoffset + x) % U32
    let off_y := (s.yoffset + y) % U32
    (TFB_SUCCESS,
     { s with
       off_x := off_x
       off_y := off_y
       win_w := w
       win_h := h
       win_end_x := (off_x + w) % U32
       win_end_y := (off_y + h) % U32 })

/-- A concrete, fully valid session state used by counterexamples:
a 640 x 480 screen with zero base offset and a full-screen viewport. -/
def winState0 : WinState :=
  { screen_w := 640, screen_h := 480, xoffset := 0, yoffset := 0,
    off_x := 0, off_y := 0, win_w := 640, win_h := 480,
    win_end_x := 640, win_end_y := 480 }

/-- C2 counterexample.  With `x = 2^32 - 1` and `w = 2` the mathematical
sum `x + w = 2^32 + 1` exceeds the screen width `640`, yet the `u32`
addition in the guard wraps to `1`, so `tfb_set_window` returns
`TFB_SUCCESS` (not `InvalidWindow`) and overwrites the viewport. -/
theorem set_window_overflow_accepts :
    640 < 4294967295 + 2 ∧
    (tfb_set_window winState0 4294967295 0 2 2).1 = TFB_SUCCESS ∧
    (tfb_set_window winState0 4294967295 0 2 2).2 ≠ winState0 := by
  refine ⟨by norm_num, by decide, by decide⟩

/-- C2 (amended).  Whenever the `u32` sums `(x+w) % 2^32` or
`(y+h) % 2^32` exceed the screen width resp. height, `tfb_set_window`
returns `TFB_INVALID_WINDOW` and leaves every field of the previously
active viewport (offset, size, end coordinates) unchanged: no clamping,
no partial application. -/
theorem set_window_invalid_rejects_unchanged (s : WinState) (x y w h : Nat)
    (hbad : (x + w) % U32 > s.screen_w ∨ (y + h) % U32 > s.screen_h) :
    tfb_set_window s x y w h = (TFB_INVALID_WINDOW, s) := by
  unfold tfb_set_window
  rcases hbad with hx | hy
  · simp [hx]
  · rcases le_or_lt ((x + w) % U32) s.screen_w with hle | hgt
    · simp [Nat.not_lt.mpr hle, hy]
    · simp [hgt]

/-- Witness for `set_window_invalid_rejects_unchanged` at a concrete
invalid window: `x + w = 1000 > 640`. -/
theorem set_window_invalid_rejects_unchanged_witness :
    tfb_set_window winState0 500 0 500 10 = (TFB_INVALID_WINDOW, winState0) :=
  set_window_invalid_rejects_unchanged winState0 500 0 500 10 (by left; decide)

/-- C5.  For every valid request, with `x + w <= screen_w` and
`y + h <= screen_h` (true mathematical sums, no wraparound because the
screen dimensions are `u32` values), `tfb_set_window` returns
`TFB_SUCCESS` and stores exactly that window: the stored offset is the
device base offset plus `(x, y)`, the stored size is `(w, h)` and the
stored end coordinates are offset plus size (all stores in `u32`
arithmetic, as the globals are `u32`). -/
theorem set_window_valid_stores (s : WinState) (x y w h : Nat)
    (hsw : s.screen_w < U32) (hsh : s.screen_h < U32)
    (hx : x + w ≤ s.screen_w) (hy : y + h ≤ s.screen_h) :
    (tfb_set_window s x y w h).1 = TFB_SUCCESS ∧
    (tfb_set_window s x y w h).2.off_x = (s.xoffset + x) % U32 ∧
    (tfb_set_window s x y w h).2.off_y = (s.yoffset + y) % U32 ∧
    (tfb_set_window s x y w h).2.win_w = w ∧
    (tfb_set_window s x y w h).2.win_h = h ∧
    (tfb_set_window s x y w h).2.win_end_x
      = ((s.xoffset + x) % U32 + w) % U32 ∧
    (tfb_set_window s x y w h).2.win_end_y
      = ((s.yoffset + y) % U32 + h) % U32 := by
  have hxm : (x + w) % U32 = x + w := Nat.mod_eq_of_lt (lt_of_le_of_lt hx hsw)
  have hym : (y + h) % U32 = y + h := Nat.mod_eq_of_lt (lt_of_le_of_lt hy hsh)
  have hx' : ¬ (x + w) % U32 > s.screen_w := by
    rw [hxm]; exact Nat.not_lt.mpr hx
  have hy' : ¬ (y + h) % U32 > s.screen_h := by
    rw [hym]; exact Nat.not_lt.mpr hy
  unfold tfb_set_window
  simp [hx', hy']

/-- Witness for `set_window_valid_stores` on `winState0` with the
window `(10, 20, 100, 50)`. -/
theorem set_window_valid_stores_witness :
    (tfb_set_window winState0 10 20 100 50).1 = TFB_SUCCESS ∧
    (tfb_set_window winState0 10 20 100 50).2.off_x = (0 + 10) % U32 ∧
    (tfb_set_window winState0 10 20 100 50).2.off_y = (0 + 20) % U32 ∧
    (tfb_set_window winState0 10 20 100 50).2.win_w = 100 ∧
    (tfb_set_window winState0 10 20 100 50).2.win_h = 50 ∧
    (tfb_set_window winState0 10 20 100 50).2.win_end_x
      = ((0 + 10) % U32 + 100) % U32 ∧
    (tfb_set_window winState0 10 20 100 50).2.win_end_y
      = ((0 + 20) % U32 + 50) % U32 :=
  set_window_valid_stores winState0 10 20 100 50
    (by decide) (by decide) (by decide) (by decide)

/-!
## Device session manager teardown (`tfb_release_fb`, lines 173-188)

`tfb_release_fb` reads the globals `__fb_real_buffer`, `__fb_buffer`,
`ttyfd` and `fbfd` and conditionally performs `munmap`, `free`,
`ioctl(KDSETMODE, KD_TEXT)` + `close`, and `close`.  The function body
never writes any of those globals.  We model the buffers as addresses
(`0` is `NULL`) and the descriptors as `Int` (`-1` means not open), and
record each side effect performed as an explicit action so that "frees
nothing" is expressible.
-/

/-- The globals consulted by `tfb_release_fb`. -/
structure FbSession where
  real_buffer : Nat
  buffer : Nat
  ttyfd : Int
  fbfd : Int
  deriving Repr, DecidableEq

/-- The externally visible side effects `tfb_release_fb` can perform. -/
inductive ReleaseAction where
  | munmap (addr : Nat)
  | free (addr : Nat)
  | kdsetmodeText (fd : Int)
  | closeTty (fd : Int)
  | closeFb (fd : Int)
  deriving Repr, DecidableEq

/-- `tfb_release_fb()` (system_code.c:173-188): unmaps the mapping if
the pointer is non-null, frees the shadow buffer if it differs from the
mapping, restores text mode and closes the tty if its descriptor is not
`-1`, and closes the framebuffer descriptor if it is not `-1`.  The
function writes none of the globals, so the returned state is the input
state; the performed side effects are returned as a list. -/
def tfb_release_fb (s : FbSession) : FbSession × List ReleaseAction :=
  (s,
   (if s.real_buffer ≠ 0 then [ReleaseAction.munmap s.real_buffer] else [])
   ++ (if s.buffer ≠ s.real_buffer then [ReleaseAction.free s.buffer] else [])
   ++ (if s.ttyfd ≠ -1 then
         [ReleaseAction.kdsetmodeText s.ttyfd, ReleaseAction.closeTty s.ttyfd]
       else [])
   ++ (if s.fbfd ≠ -1 then [ReleaseAction.closeFb s.fbfd] else []))

/-- A fully acquired shadow-buffer session: mapping at a non-null
address, a distinct shadow buffer, and open tty/fb descriptors. -/
def fbSession0 : FbSession :=
  { real_buffer := 4096, buffer := 8192, ttyfd := 3, fbfd := 4 }

/-- C1 counterexample.  On a fully held session the first call to
`tfb_release_fb` leaves every global exactly as it was (the function
clears nothing), so the second call performs the very same unmap, free
and closes again instead of being a no-op. -/
theorem release_fb_second_call_not_noop :
    (tfb_release_fb fbSession0).1 = fbSession0 ∧
    (tfb_release_fb (tfb_release_fb fbSession0).1).2
      = [ReleaseAction.munmap 4096, ReleaseAction.free 8192,
         ReleaseAction.kdsetmodeText 3, ReleaseAction.closeTty 3,
         ReleaseAction.closeFb 4] ∧
    (tfb_release_fb (tfb_release_fb fbSession0).1).2 ≠ [] := by
  refine ⟨by decide, by decide, by decide⟩

/-- C1 (amended).  Each resource is freed only when currently held:
the unmap happens iff the mapping pointer is non-null, the `free` iff
the shadow buffer differs from the mapping, the tty text-mode restore
and close iff `ttyfd ≠ -1`, the device close iff `fbfd ≠ -1`.  However,
`tfb_release_fb` does not clear the session state: every global keeps
its value, so a second call repeats exactly the same frees, unmaps and
closes rather than being a no-op. -/
theorem release_fb_guards_and_state (s : FbSession) :
    (tfb_release_fb s).1 = s ∧
    (tfb_release_fb (tfb_release_fb s).1).2 = (tfb_release_fb s).2 ∧
    ((ReleaseAction.munmap s.real_buffer ∈ (tfb_release_fb s).2)
        ↔ s.real_buffer ≠ 0) ∧
    ((ReleaseAction.free s.buffer ∈ (tfb_release_fb s).2)
        ↔ s.buffer ≠ s.real_buffer) ∧
    ((ReleaseAction.closeTty s.ttyfd ∈ (tfb_release_fb s).2)
        ↔ s.ttyfd ≠ -1) ∧
    ((ReleaseAction.closeFb s.fbfd ∈ (tfb_release_fb s).2)
        ↔ s.fbfd ≠ -1) := by
  refine ⟨rfl, rfl, ?_, ?_, ?_, ?_⟩
  · by_cases h : s.real_buffer = 0 <;> simp [tfb_release_fb, h]
  · by_cases h : s.buffer = s.real_buffer <;>
      by_cases h2 : s.real_buffer = 0 <;> simp [tfb_release_fb, h, h2]
  · by_cases h : s.ttyfd = -1 <;> simp [tfb_release_fb, h]
  · by_cases h : s.fbfd = -1 <;> simp [tfb_release_fb, h]

/-!
## Keypress decoder (`read_esc_seq` lines 239-270, `tfb_read_keypress`
lines 272-286)

`read(0, &c, 1)` delivers one byte; the input stream is modelled as a
`List Nat` of byte values (`0..255`), and an exhausted list models a
read returning `<= 0`.  The C variable `c` has type plain `char`, which
is signed on this library's targets: the comparisons `c != '\033'`,
`c != '['` and `0x40 <= c && c <= 0x7E` on a signed `char` decide
exactly the same way as the corresponding comparisons on the unsigned
byte value (bytes `>= 0x80` read as negative and fail `0x40 <= c`), so
the guards below compare byte values directly; the sign only matters in
`tfb_read_keypress`'s `return c`, where the signed `char` is converted
to `uint64_t`.
-/

/-- The value of the C `char` holding byte `b` on a signed-`char`
target: bytes `>= 0x80` read as negative. -/
def charOfByte (b : Nat) : Int :=
  if b < 128 then (b : Int) else (b : Int) - 256

/-- C conversion of a (possibly negative) `char` value to `uint64_t`:
the value modulo `2^64`. -/
def u64OfChar (c : Int) : Nat :=
  (c % (U64 : Int)).toNat

/-- `*(uint64_t *)buf` on the zero-initialized 8-byte buffer of
`read_esc_seq` (system_code.c:269), on a little-endian machine: the
little-endian packing of the accumulated bytes (absent trailing bytes
are the buffer's zero initialization, which contributes nothing). -/
def leBytes : List Nat → Nat
  | [] => 0
  | b :: rest => b + 256 * leBytes rest

/-- The loop-exit test of `read_esc_seq` (system_code.c:262): the byte
is a final byte of an ANSI escape sequence, in `0x40..0x7E` and not
`[`. -/
def isEscTerminator (c : Nat) : Bool :=
  decide (0x40 ≤ c) && decide (c ≤ 0x7E) && c != 0x5B

/-- The `while (1)` loop of `read_esc_seq` (system_code.c:255-267),
with `buf` the bytes accumulated so far: read a byte (failure yields
the `0` sentinel), append it, return the buffer's 64-bit value if the
byte is a terminator, return `0` if the buffer is full (8 bytes)
without a terminator, else continue. -/
def read_esc_seq_loop : List Nat → List Nat → Nat
  | [], _ => 0
  | c :: rest, buf =>
    let buf2 := buf ++ [c]
    if isEscTerminator c then leBytes buf2
    else if buf2.length = 8 then 0
    else read_esc_seq_loop rest buf2

/-- `read_esc_seq()` (system_code.c:239-270): the escape byte is
already consumed and seeded into the buffer; read one byte, reject
(sentinel `0`) unless it is `[`, then run the assembly loop with the
buffer holding `\033[`. -/
def read_esc_seq (input : List Nat) : Nat :=
  match input with
  | [] => 0
  | c :: rest =>
    if c ≠ 0x5B then 0
    else read_esc_seq_loop rest [0x1B, 0x5B]

/-- `tfb_read_keypress()` (system_code.c:272-286): read one byte
(failure yields `0`); a non-escape byte is returned through
`return c`, i.e. the signed `char` converted to `uint64_t`; the escape
byte enters escape-sequence assembly. -/
def tfb_read_keypress (input : List Nat) : Nat :=
  match input with
  | [] => 0
  | c :: rest =>
    if c ≠ 0x1B then u64OfChar (charOfByte c)
    else read_esc_seq rest

/-- C3 counterexample.  On the single non-escape input byte `0x80`,
`tfb_read_keypress` returns `2^64 - 128` (the signed `char` value
`-128` converted to `uint64_t`), not the zero-extended byte value
`128`: the result is neither the byte value nor in `0..255`. -/
theorem read_keypress_high_byte_sign_extends :
    tfb_read_keypress [0x80] = 18446744073709551488 ∧
    tfb_read_keypress [0x80] ≠ 0x80 ∧
    ¬ tfb_read_keypress [0x80] < 256 := by
  refine ⟨by decide, by decide, by decide⟩

/-- C3 (amended).  For every input byte `b` other than the escape
character `0x1B`, `tfb_read_keypress` returns the byte read as a
(signed) C `char` and converted to `uint64_t`: bytes `0x00..0x7F`
(among them `0x41`, giving `65`) are returned as-is, while bytes
`0x80..0xFF` are sign-extended, giving `2^64 - 256 + b` rather than
the zero-extended byte value. -/
theorem read_keypress_plain_byte (b : Nat) (hb : b < 256) (hne : b ≠ 0x1B) :
    tfb_read_keypress [b] =
      if b < 128 then b else 18446744073709551360 + b := by
  unfold tfb_read_keypress
  simp only [hne, if_false, ne_eq, not_false_iff, if_true]
  unfold u64OfChar charOfByte U64
  split <;> rename_i h <;> omega

/-- Witness for `read_keypress_plain_byte` at the byte `0x41` ('A'):
the result is `65`. -/
theorem read_keypress_plain_byte_witness :
    tfb_read_keypress [0x41] = if 0x41 < 128 then 0x41
      else 18446744073709551360 + 0x41 :=
  read_keypress_plain_byte 0x41 (by decide) (by decide)

/-- C6.  On the input byte sequence `{0x1B, '[', 'A'}` (cursor-up),
`tfb_read_keypress` returns the little-endian packing of those three
bytes followed by five zero bytes — `0x1B + 0x5B * 2^8 + 0x41 * 2^16 =
4283163` — which is nonzero; and that value is exactly the buffer
`[0x1B, 0x5B, 0x41, 0, 0, 0, 0, 0]` reinterpreted as a 64-bit
little-endian integer. -/
theorem read_keypress_cursor_up :
    tfb_read_keypress [0x1B, 0x5B, 0x41]
      = leBytes [0x1B, 0x5B, 0x41, 0, 0, 0, 0, 0] ∧
    leBytes [0x1B, 0x5B, 0x41, 0, 0, 0, 0, 0]
      = 0x1B + 0x5B * 256 + 0x41 * 65536 ∧
    tfb_read_keypress [0x1B, 0x5B, 0x41] ≠ 0 := by
  refine ⟨by decide, by decide, by decide⟩

/-- `leBytes` of a buffer beginning with the escape byte is nonzero. -/
theorem leBytes_esc_ne_zero (l : List Nat) : leBytes (0x1B :: l) ≠ 0 := by
  show 0x1B + 256 * leBytes l ≠ 0
  omega

/-- C8.  An escape sequence whose eighth byte (counting the initial
`0x1B` and `[`) is a terminator (`0x40..0x7E`, not `[`) is accepted:
after `[` and five non-terminator bytes, a terminator as the eighth
accumulated byte decodes to the full 8-byte little-endian key code
(nonzero), while a non-terminator eighth byte yields the too-long
sentinel `0`. -/
theorem esc_seq_eighth_byte (b1 b2 b3 b4 b5 t c : Nat) (rest : List Nat)
    (h1 : isEscTerminator b1 = false) (h2 : isEscTerminator b2 = false)
    (h3 : isEscTerminator b3 = false) (h4 : isEscTerminator b4 = false)
    (h5 : isEscTerminator b5 = false) (ht : isEscTerminator t = true)
    (hc : isEscTerminator c = false) :
    tfb_read_keypress (0x1B :: 0x5B :: b1 :: b2 :: b3 :: b4 :: b5 :: t :: rest)
      = leBytes [0x1B, 0x5B, b1, b2, b3, b4, b5, t] ∧
    tfb_read_keypress (0x1B :: 0x5B :: b1 :: b2 :: b3 :: b4 :: b5 :: t :: rest)
      ≠ 0 ∧
    tfb_read_keypress (0x1B :: 0x5B :: b1 :: b2 :: b3 :: b4 :: b5 :: c :: rest)
      = 0 := by
  have hrun : ∀ (x : Nat) (tail : List Nat),
      tfb_read_keypress (0x1B :: 0x5B :: b1 :: b2 :: b3 :: b4 :: b5 :: x :: tail)
        = read_esc_seq_loop (b1 :: b2 :: b3 :: b4 :: b5 :: x :: tail)
            [0x1B, 0x5B] := by
    intro x tail
    simp [tfb_read_keypress, read_esc_seq]
  rw [hrun, hrun]
  simp only [read_esc_seq_loop, h1, h2, h3, h4, h5, ht, hc,
    List.append_eq, List.length_append, List.length_cons, List.length_nil,
    if_false, if_true, Bool.false_eq_true, reduceIte]
  refine ⟨rfl, ?_, by rfl⟩
  exact leBytes_esc_ne_zero [0x5B, b1, b2, b3, b4, b5, t]

/-- Witness for `esc_seq_eighth_byte` on the concrete sequence
`ESC [ 1 2 3 4 5 ~` (terminator `~` as eighth byte) against
`ESC [ 1 2 3 4 5 6` (non-terminator eighth byte). -/
theorem esc_seq_eighth_byte_witness :
    tfb_read_keypress [0x1B, 0x5B, 0x31, 0x32, 0x33, 0x34, 0x35, 0x7E]
      = leBytes [0x1B, 0x5B, 0x31, 0x32, 0x33, 0x34, 0x35, 0x7E] ∧
    tfb_read_keypress [0x1B, 0x5B, 0x31, 0x32, 0x33, 0x34, 0x35, 0x7E] ≠ 0 ∧
    tfb_read_keypress [0x1B, 0x5B, 0x31, 0x32, 0x33, 0x34, 0x35, 0x36] = 0 :=
  esc_seq_eighth_byte 0x31 0x32 0x33 0x34 0x35 0x7E 0x36 []
    (by decide) (by decide) (by decide) (by decide) (by decide)
    (by decide) (by decide)

/-!
## Terminal mode controller (`tfb_set_kb_raw_mode` lines 206-225,
`tfb_restore_kb_mode` lines 227-237)

The state is the flag `tfb_kb_raw_mode`, the saved snapshot
`orig_termios` and the terminal's current attributes (what `tcgetattr`
reads and `tcsetattr` writes).  A termios is modelled by the two flag
words the code touches plus one field standing for everything else.
`tcgetattr`/`tcsetattr` can fail; each call site's outcome is a `Bool`
parameter. -/

/-- The parts of `struct termios` the code reads or writes; `other`
stands for all remaining fields, carried through unchanged. -/
structure Termios where
  c_iflag : Nat
  c_lflag : Nat
  other : Nat
  deriving Repr, DecidableEq

/-- `t.c_iflag &= ~(BRKINT | INPCK | ISTRIP | IXON);
t.c_lflag &= ~(ECHO | ICANON | IEXTEN | ISIG);`
(system_code.c:217-218), with the Linux values of those flags
(`BRKINT|INPCK|ISTRIP|IXON = 0x432`,
`ECHO|ICANON|IEXTEN|ISIG = 0x800b`). -/
def rawify (t : Termios) : Termios :=
  { t with
    c_iflag := Nat.ldiff t.c_iflag 0x432
    c_lflag := Nat.ldiff t.c_lflag 0x800b }

/-- The globals of the terminal mode controller together with the
terminal itself. -/
structure KbState where
  tfb_kb_raw_mode : Bool
  orig_termios : Termios
  term : Termios
  deriving Repr, DecidableEq

/-- `tfb_set_kb_raw_mode()` (system_code.c:206-225).  `getOk` (resp.
`setOk`) is whether this call's `tcgetattr` (resp. `tcsetattr`)
succeeds.  Note `tcgetattr` overwrites `orig_termios` before
`tcsetattr` runs, so a failing `tcsetattr` still leaves the snapshot
overwritten — faithful to the source. -/
def tfb_set_kb_raw_mode (s : KbState) (getOk setOk : Bool) : Nat × KbState :=
  if s.tfb_kb_raw_mode then (TFB_KB_WRONG_MODE, s)
  else if !getOk then (TFB_KB_MODE_GET_FAILED, s)
  else
    let s1 := { s with orig_termios := s.term }
    if !setOk then (TFB_KB_MODE_SET_FAILED, s1)
    else (TFB_SUCCESS,
          { s1 with term := rawify s.term, tfb_kb_raw_mode := true })

/-- `tfb_restore_kb_mode()` (system_code.c:227-237). -/
def tfb_restore_kb_mode (s : KbState) (setOk : Bool) : Nat × KbState :=
  if !s.tfb_kb_raw_mode then (TFB_KB_WRONG_MODE, s)
  else if !setOk then (TFB_KB_MODE_SET_FAILED, s)
  else (TFB_SUCCESS, { s with term := s.orig_termios,
                              tfb_kb_raw_mode := false })

/-- C7.  From any non-raw state, a successful `tfb_set_kb_raw_mode`
returns `TFB_SUCCESS`, and a second consecutive call — whatever its
`tcgetattr`/`tcsetattr` outcomes — returns `TFB_KB_WRONG_MODE` and
leaves the whole state (saved snapshot and terminal attributes)
untouched; more generally any call in raw mode returns
`TFB_KB_WRONG_MODE` unchanged.  And from any non-raw state,
`tfb_restore_kb_mode` returns `TFB_KB_WRONG_MODE`. -/
theorem kb_wrong_mode_guards (s s2 : KbState) (g2 k2 g4 k4 k3 : Bool)
    (h : s.tfb_kb_raw_mode = false) (h2 : s2.tfb_kb_raw_mode = true) :
    (tfb_set_kb_raw_mode s true true).1 = TFB_SUCCESS ∧
    tfb_set_kb_raw_mode (tfb_set_kb_raw_mode s true true).2 g2 k2
      = (TFB_KB_WRONG_MODE, (tfb_set_kb_raw_mode s true true).2) ∧
    tfb_set_kb_raw_mode s2 g4 k4 = (TFB_KB_WRONG_MODE, s2) ∧
    tfb_restore_kb_mode s k3 = (TFB_KB_WRONG_MODE, s) := by
  refine ⟨?_, ?_, ?_, ?_⟩
  · simp [tfb_set_kb_raw_mode, h]
  · simp [tfb_set_kb_raw_mode, h]
  · simp [tfb_set_kb_raw_mode, h2]
  · simp [tfb_restore_kb_mode, h]

/-- Witness for `kb_wrong_mode_guards` on a concrete non-raw state
(and a concrete raw state). -/
theorem kb_wrong_mode_guards_witness :
    (tfb_set_kb_raw_mode ⟨false, ⟨0, 0, 0⟩, ⟨0x532, 0x8a3b, 7⟩⟩ true true).1
      = TFB_SUCCESS ∧
    tfb_set_kb_raw_mode
        (tfb_set_kb_raw_mode
          ⟨false, ⟨0, 0, 0⟩, ⟨0x532, 0x8a3b, 7⟩⟩ true true).2 true true
      = (TFB_KB_WRONG_MODE,
         (tfb_set_kb_raw_mode
           ⟨false, ⟨0, 0, 0⟩, ⟨0x532, 0x8a3b, 7⟩⟩ true true).2) ∧
    tfb_set_kb_raw_mode ⟨true, ⟨1, 2, 3⟩, ⟨4, 5, 6⟩⟩ false false
      = (TFB_KB_WRONG_MODE, ⟨true, ⟨1, 2, 3⟩, ⟨4, 5, 6⟩⟩) ∧
    tfb_restore_kb_mode ⟨false, ⟨0, 0, 0⟩, ⟨0x532, 0x8a3b, 7⟩⟩ true
      = (TFB_KB_WRONG_MODE, ⟨false, ⟨0, 0, 0⟩, ⟨0x532, 0x8a3b, 7⟩⟩) :=
  kb_wrong_mode_guards ⟨false, ⟨0, 0, 0⟩, ⟨0x532, 0x8a3b, 7⟩⟩
    ⟨true, ⟨1, 2, 3⟩, ⟨4, 5, 6⟩⟩ true true false false true rfl rfl

/-!
## Function-key table (`tfb_fn_key_seq_char` lines 288-302,
`tfb_fn_key_sequences` line 304, `tfb_get_fn_key_num` lines 306-313)

The static table is 12 rows of 8 bytes; `tfb_fn_key_sequences` views it
as 12 `uint64_t` values, i.e. (little-endian machine) the little-endian
packing of each row. -/

/-- The 12 x 8 byte table `tfb_fn_key_seq_char` (system_code.c:288-302):
the escape sequences of F1..F12. -/
def tfb_fn_key_seq_char : List (List Nat) :=
  [[0x1B, 0x5B, 0x5B, 0x41, 0, 0, 0, 0],
   [0x1B, 0x5B, 0x5B, 0x42, 0, 0, 0, 0],
   [0x1B, 0x5B, 0x5B, 0x43, 0, 0, 0, 0],
   [0x1B, 0x5B, 0x5B, 0x44, 0, 0, 0, 0],
   [0x1B, 0x5B, 0x5B, 0x45, 0, 0, 0, 0],
   [0x1B, 0x5B, 0x31, 0x37, 0x7E, 0, 0, 0],
   [0x1B, 0x5B, 0x31, 0x38, 0x7E, 0, 0, 0],
   [0x1B, 0x5B, 0x31, 0x39, 0x7E, 0, 0, 0],
   [0x1B, 0x5B, 0x32, 0x30, 0x7E, 0, 0, 0],
   [0x1B, 0x5B, 0x32, 0x31, 0x7E, 0, 0, 0],
   [0x1B, 0x5B, 0x32, 0x33, 0x7E, 0, 0, 0],
   [0x1B, 0x5B, 0x32, 0x34, 0x7E, 0, 0, 0]]

/-- `tfb_fn_key_sequences` (system_code.c:304): the table reinterpreted
as 12 `uint64_t` values (little-endian machine). -/
def tfb_fn_key_sequences : List Nat :=
  tfb_fn_key_seq_char.map leBytes

/-- The linear search of `tfb_get_fn_key_num` (system_code.c:308-310)
over the remaining entries, `i` the index of the first one. -/
def fn_key_search (k : Nat) : List Nat → Nat → Nat
  | [], _ => 0
  | c :: rest, i => if c = k then i + 1 else fn_key_search k rest (i + 1)

/-- `tfb_get_fn_key_num(k)` (system_code.c:306-313): 1-based index of
the first table entry equal to `k`, or `0`. -/
def tfb_get_fn_key_num (k : Nat) : Nat :=
  fn_key_search k tfb_fn_key_sequences 0

/-- The byte stream a terminal emits for the `i`-th table row: the
row's bytes up to its zero padding. -/
def fn_key_stream (i : Nat) : List Nat :=
  (tfb_fn_key_seq_char.getD i []).takeWhile (fun b => b ≠ 0)

/-- C9.  For each `i < 12`, feeding `tfb_read_keypress` the exact byte
stream of the `i`-th function-key table entry (e.g. `{0x1B,'[','[','A'}`
for F1, whose second `[` does not terminate assembly) yields a key code
`k` with `tfb_get_fn_key_num k = i + 1`: the decoder and the table
round-trip. -/
theorem fn_keys_round_trip (i : Nat) (hi : i < 12) :
    tfb_get_fn_key_num (tfb_read_keypress (fn_key_stream i)) = i + 1 := by
  revert i
  decide

/-- Witness for `fn_keys_round_trip` at `i = 0` (F1, the sequence
containing a second `[`). -/
theorem fn_keys_round_trip_witness :
    tfb_get_fn_key_num (tfb_read_keypress (fn_key_stream 0)) = 0 + 1 :=
  fn_keys_round_trip 0 (by decide)

/-- `fn_key_search` returns at most `i` plus the number of entries left. -/
theorem fn_key_search_le (k : Nat) (l : List Nat) (i : Nat) :
    fn_key_search k l i ≤ i + l.length := by
  induction l generalizing i with
  | nil => simp [fn_key_search]
  | cons c rest ih =>
    simp only [fn_key_search, List.length_cons]
    split
    · omega
    · have := ih (i + 1)
      omega

/-- A hit of `fn_key_search` is the first matching entry at or after
the start index. -/
theorem fn_key_search_first (k : Nat) (l : List Nat) (i j : Nat)
    (h : fn_key_search k l i = j + 1) :
    i ≤ j ∧ j - i < l.length ∧ l.getD (j - i) 0 = k ∧
      ∀ m, m < j - i → l.getD m 0 ≠ k := by
  induction l generalizing i with
  | nil => simp [fn_key_search] at h
  | cons c rest ih =>
    simp only [fn_key_search] at h
    by_cases hc : c = k
    · rw [if_pos hc] at h
      have hij : j = i := by omega
      subst hij
      simp [hc]
    · rw [if_neg hc] at h
      obtain ⟨h1, h2, h3, h4⟩ := ih (i + 1) h
      refine ⟨by omega, ?_, ?_, ?_⟩
      · simp only [List.length_cons]; omega
      · have : j - i = (j - (i + 1)) + 1 := by omega
        rw [this, List.getD_cons_succ]
        exact h3
      · intro m hm
        match m with
        | 0 => simpa using hc
        | m' + 1 =>
          rw [List.getD_cons_succ]
          exact h4 m' (by omega)

/-- C10.  Every entry of the 12-element function-key table is nonzero;
`tfb_get_fn_key_num 0 = 0`, so the decoder's `0` sentinel never
collides with a function-key code; the result is always in `0..12`;
and a result `j + 1` means entry `j` is the first entry equal to the
queried code. -/
theorem fn_key_table_sound :
    (∀ i, i < 12 → tfb_fn_key_sequences.getD i 0 ≠ 0) ∧
    tfb_get_fn_key_num 0 = 0 ∧
    (∀ k, tfb_get_fn_key_num k ≤ 12) ∧
    (∀ k j, tfb_get_fn_key_num k = j + 1 →
       j < 12 ∧ tfb_fn_key_sequences.getD j 0 = k ∧
         ∀ m, m < j → tfb_fn_key_sequences.getD m 0 ≠ k) := by
  refine ⟨by decide, by decide, ?_, ?_⟩
  · intro k
    have := fn_key_search_le k tfb_fn_key_sequences 0
    simpa [tfb_get_fn_key_num] using this
  · intro k j h
    obtain ⟨h1, h2, h3, h4⟩ :=
      fn_key_search_first k tfb_fn_key_sequences 0 j h
    refine ⟨by simpa [tfb_fn_key_sequences, tfb_fn_key_seq_char] using h2,
            by simpa using h3, ?_⟩
    intro m hm
    have := h4 m (by omega)
    simpa using this

/-!
## Compositor (`tfb_flush_window`, lines 190-204)

Both buffers are byte-addressed (`Nat → Nat`, address to byte value);
the C pointer arithmetic on the `void *` buffer bases is byte
arithmetic.  `dest` and `src` start at the same byte offset
`__fb_off_y * __fb_pitch + (__fb_off_x << 2)`; each loop iteration
`memcpy`s `win_pitch = __fb_win_w << 2` bytes and advances both `u32`
pointers by `__fb_pitch_div4` slots, i.e. `4 * (pitch / 4)` bytes
(`__fb_pitch_div4 = __fb_pitch >> 2`, set at acquisition,
system_code.c:95). -/

/-- One `memcpy` between the two buffers, both pointers at the same
byte offset `pos`, copying `n` bytes. -/
def memcpy_at (dst src : Nat → Nat) (pos n : Nat) : Nat → Nat :=
  fun a => if pos ≤ a ∧ a < pos + n then src a else dst a

/-- The `for` loop of `tfb_flush_window` (system_code.c:199-203) run
for the first `h` rows: row `r` is copied at byte offset
`start + r * adv`, `len` bytes. -/
def flush_rows (dst src : Nat → Nat) (start adv len : Nat) : Nat → (Nat → Nat)
  | 0 => dst
  | r + 1 =>
    memcpy_at (flush_rows dst src start adv len r) src (start + r * adv) len

/-- `tfb_flush_window()` (system_code.c:190-204).  `sameBuffer` is the
guard `__fb_buffer == __fb_real_buffer` (zero-copy mode): then nothing
happens.  Otherwise the viewport's `win_h` rows are copied from the
shadow buffer into the real buffer.  Alongside the new real buffer the
list of `(byte offset, byte count)` copies performed is returned. -/
def tfb_flush_window (sameBuffer : Bool) (real shadow : Nat → Nat)
    (off_x off_y win_w win_h pitch : Nat) :
    (Nat → Nat) × List (Nat × Nat) :=
  if sameBuffer then (real, [])
  else
    let start := off_y * pitch + 4 * off_x
    let adv := 4 * (pitch / 4)
    (flush_rows real shadow start adv (4 * win_w) win_h,
     (List.range win_h).map (fun r => (start + r * adv, 4 * win_w)))

/-- Byte address `a` lies inside the active viewport: its row
(`a / pitch`) is one of the viewport's rows and its byte column
(`a % pitch`) one of the viewport's byte columns. -/
def inViewportBytes (pitch off_x off_y win_w win_h a : Nat) : Prop :=
  off_y ≤ a / pitch ∧ a / pitch < off_y + win_h ∧
  4 * off_x ≤ a % pitch ∧ a % pitch < 4 * off_x + 4 * win_w

instance (pitch off_x off_y win_w win_h a : Nat) :
    Decidable (inViewportBytes pitch off_x off_y win_w win_h a) := by
  unfold inViewportBytes
  infer_instance

/-- A byte no row's copy reaches is left as the destination had it. -/
theorem flush_rows_outside (dst src : Nat → Nat) (start adv len h a : Nat)
    (ha : ∀ r, r < h → ¬(start + r * adv ≤ a ∧ a < start + r * adv + len)) :
    flush_rows dst src start adv len h a = dst a := by
  induction h with
  | zero => rfl
  | succ n ih =>
    simp only [flush_rows, memcpy_at]
    rw [if_neg (ha n (by omega))]
    exact ih fun r hr => ha r (by omega)

/-- A byte some row's copy reaches holds the shadow buffer's byte. -/
theorem flush_rows_inside (dst src : Nat → Nat) (start adv len h a : Nat)
    (ha : ∃ r, r < h ∧ start + r * adv ≤ a ∧ a < start + r * adv + len) :
    flush_rows dst src start adv len h a = src a := by
  induction h with
  | zero =>
    obtain ⟨r, hr, _⟩ := ha
    omega
  | succ n ih =>
    simp only [flush_rows, memcpy_at]
    by_cases hn : start + n * adv ≤ a ∧ a < start + n * adv + len
    · rw [if_pos hn]
    · rw [if_neg hn]
      apply ih
      obtain ⟨r, hr, hr1, hr2⟩ := ha
      rcases Nat.lt_succ_iff_lt_or_eq.mp hr with hlt | heq
      · exact ⟨r, hlt, hr1, hr2⟩
      · subst heq
        exact absurd ⟨hr1, hr2⟩ hn

/-- The sum of a constant mapped over `List.range`. -/
theorem sum_map_const_range (n c : Nat) :
    ((List.range n).map (fun _ => c)).sum = n * c := by
  induction n with
  | zero => simp
  | succ m ih =>
    rw [List.range_succ, List.map_append, List.sum_append]
    simp [ih, Nat.succ_mul]

/-- C4.  In shadow-buffer mode (buffers distinct), with the device
stride a multiple of 4 wide enough for the viewport's row span,
`tfb_flush_window` (a) performs one copy per viewport row of exactly
`win_w * 4` bytes at the same row/column byte offset in both buffers,
advancing by the device stride between rows — `win_w * win_h * 4`
bytes in total; (b) makes every byte inside the viewport equal the
shadow buffer's byte; and (c) leaves every byte of the mapped region
outside the active viewport unchanged. -/
theorem flush_window_shadow_copies (real shadow : Nat → Nat)
    (off_x off_y win_w win_h pitch : Nat)
    (hp : 0 < pitch) (hdvd : 4 ∣ pitch)
    (hfit : 4 * off_x + 4 * win_w ≤ pitch) :
    (tfb_flush_window false real shadow off_x off_y win_w win_h pitch).2
      = (List.range win_h).map
          (fun r => (off_y * pitch + 4 * off_x + r * pitch, 4 * win_w)) ∧
    ((tfb_flush_window false real shadow off_x off_y win_w win_h pitch).2.map
        Prod.snd).sum = win_w * win_h * 4 ∧
    (∀ r j, r < win_h → j < 4 * win_w →
       (tfb_flush_window false real shadow off_x off_y win_w win_h pitch).1
           (off_y * pitch + 4 * off_x + r * pitch + j)
         = shadow (off_y * pitch + 4 * off_x + r * pitch + j)) ∧
    (∀ a, ¬ inViewportBytes pitch off_x off_y win_w win_h a →
       (tfb_flush_window false real shadow off_x off_y win_w win_h pitch).1 a
         = real a) := by
  have hadv : 4 * (pitch / 4) = pitch := Nat.mul_div_cancel' hdvd
  simp only [tfb_flush_window, Bool.false_eq_true, if_false, hadv]
  refine ⟨trivial, ?_, ?_, ?_⟩
  · rw [List.map_map]
    have : (Prod.snd ∘ fun r =>
        (off_y * pitch + 4 * off_x + r * pitch, 4 * win_w))
        = fun _ => 4 * win_w := rfl
    rw [this, sum_map_const_range]
    ring
  · intro r j hr hj
    apply flush_rows_inside
    exact ⟨r, hr, by omega, by omega⟩
  · intro a hnin
    apply flush_rows_outside
    intro r hr hcontra
    apply hnin
    obtain ⟨hle, hlt⟩ := hcontra
    set j := a - (off_y * pitch + 4 * off_x + r * pitch) with hjdef
    have hja : a = off_y * pitch + 4 * off_x + r * pitch + j := by omega
    have hjlt : j < 4 * win_w := by omega
    have hA : 4 * off_x + j < pitch := by omega
    have hsplit : a = (4 * off_x + j) + (off_y + r) * pitch := by
      rw [hja]; ring
    have hdiv : a / pitch = off_y + r := by
      rw [hsplit, Nat.add_mul_div_right _ _ hp, Nat.div_eq_of_lt hA]
      omega
    have hmod : a % pitch = 4 * off_x + j := by
      rw [hsplit, Nat.add_mul_mod_self_right]
      exact Nat.mod_eq_of_lt hA
    exact ⟨by omega, by omega, by omega, by omega⟩

/-- A concrete mapped region for the C4 witness: byte `a` holds `a`. -/
def realBuf0 : Nat → Nat := fun a => a

/-- A concrete shadow buffer for the C4 witness: byte `a` holds
`a + 1000`. -/
def shadowBuf0 : Nat → Nat := fun a => a + 1000

/-- Witness for `flush_window_shadow_copies`: stride 16, viewport at
pixel (1, 1), 2 x 2 pixels, distinct concrete buffers. -/
theorem flush_window_shadow_copies_witness :
    (tfb_flush_window false realBuf0 shadowBuf0 1 1 2 2 16).2
      = (List.range 2).map (fun r => (1 * 16 + 4 * 1 + r * 16, 4 * 2)) ∧
    ((tfb_flush_window false realBuf0 shadowBuf0 1 1 2 2 16).2.map
        Prod.snd).sum = 2 * 2 * 4 ∧
    (∀ r j, r < 2 → j < 4 * 2 →
       (tfb_flush_window false realBuf0 shadowBuf0 1 1 2 2 16).1
           (1 * 16 + 4 * 1 + r * 16 + j)
         = shadowBuf0 (1 * 16 + 4 * 1 + r * 16 + j)) ∧
    (∀ a, ¬ inViewportBytes 16 1 1 2 2 a →
       (tfb_flush_window false realBuf0 shadowBuf0 1 1 2 2 16).1 a
         = realBuf0 a) :=
  flush_window_shadow_copies realBuf0 shadowBuf0 1 1 2 2 16
    (by decide) (by decide) (by decide)
